import Mathlib

/-!
# A verification development for the in-memory posts server (`main.go`)

The server keeps a package-level map `posts : map[int]Post`, a counter `nextID`
and a mutex.  Every handler runs under the mutex, so a handler is modelled as a
pure function from the store (and the response writer it was given) to the new
store and the response writer after the handler has returned.

Modelling conventions.

* Go `int` values are modelled by `Int`.  The only arithmetic of the program is
  `nextID++`, starting from `1`; wrap-around of the counter (after `2^63 - 1`
  creates on a 64 bit platform) is outside the model.
* `map[int]Post` is modelled by an association list without duplicate keys
  (`AList`).  The order of the entries stands for the order in which `range`
  happens to visit the map; nothing is assumed about it.
* `http.ResponseWriter` is modelled by the header map, the status line that was
  sent (the first `WriteHeader`, or the implicit `200` of the first `Write`;
  later `WriteHeader` calls are ignored by `net/http`) and the chunks written
  to the body.
* `io.ReadAll` followed by `json.Unmarshal` into a `Post` is modelled by what the
  decoder finds: a read failure, a body that does not decode, or an object giving
  an optional `id` and an optional `body` field.
* `strconv.Atoi` is transcribed from the Go standard library (64 bit `int`).
-/

namespace GoServer

/-! ## Data model -/

/-- The `Post` struct of `main.go`. -/
structure Post where
  ID : Int
  Body : String
deriving DecidableEq, Repr

/-- The Go map `map[int]Post`. -/
abbrev PostMap := AList (fun _ : Int => Post)

/-- The package-level variables `posts` and `nextID`. -/
structure Store where
  posts : PostMap
  nextID : Int

/-- The store at program start: `make(map[int]Post)` and `nextID = 1`. -/
def Store.initial : Store := ⟨∅, 1⟩

/-- The zero value of `Post`, which `var post Post` and a failed map read yield. -/
def Post.zero : Post := ⟨0, ""⟩

/-! ## Response writer -/

/-- One write to the response body. -/
inductive Chunk where
  | text (s : String)
  | post (p : Post)
  | posts (ps : List Post)
deriving DecidableEq, Repr

/-- The observable state of an `http.ResponseWriter`. -/
structure ResponseWriter where
  header : List (String × String)
  status : Option Nat
  body : List Chunk
deriving DecidableEq, Repr

/-- The writer a handler receives. -/
def ResponseWriter.fresh : ResponseWriter := ⟨[], none, []⟩

/-- The call `w.Header().Set(k, v)`. -/
def ResponseWriter.SetHeader (w : ResponseWriter) (k v : String) : ResponseWriter :=
  { w with header := (k, v) :: w.header.filter (fun e => e.1 ≠ k) }

/-- The call `w.WriteHeader(code)`: only the first call sends a status line. -/
def ResponseWriter.WriteHeader (w : ResponseWriter) (code : Nat) : ResponseWriter :=
  match w.status with
  | none => { w with status := some code }
  | some _ => w

/-- The call `w.Write(data)`: sends an implicit `200` when no status was sent yet. -/
def ResponseWriter.Write (w : ResponseWriter) (c : Chunk) : ResponseWriter :=
  let w1 := w.WriteHeader 200
  { w1 with body := w1.body ++ [c] }

/-- The status a client sees once the handler has returned. -/
def ResponseWriter.finalStatus (w : ResponseWriter) : Nat := w.status.getD 200

def StatusOK : Nat := 200
def StatusCreated : Nat := 201
def StatusBadRequest : Nat := 400
def StatusNotFound : Nat := 404
def StatusMethodNotAllowed : Nat := 405
def StatusInternalServerError : Nat := 500

/-- The library function `http.Error(w, msg, code)`. -/
def httpError (w : ResponseWriter) (msg : String) (code : Nat) : ResponseWriter :=
  (((w.SetHeader "Content-Type" "text/plain; charset=utf-8").SetHeader
    "X-Content-Type-Options" "nosniff").WriteHeader code).Write (Chunk.text (msg ++ "\n"))

/-- The call `json.NewEncoder(w).Encode(v)`. -/
def jsonEncode (w : ResponseWriter) (c : Chunk) : ResponseWriter := w.Write c

/-! ## Requests -/

/-- What `encoding/json` finds in a request body when decoding into a `Post`. -/
inductive Json where
  | invalid
  | object (id : Option Int) (body : Option String)
deriving DecidableEq, Repr

/-- The body stream of a request. -/
inductive ReqBody where
  | unreadable
  | data (j : Json)
deriving DecidableEq, Repr

/-- The fields of `http.Request` the handlers read. -/
structure Request where
  Method : String
  Path : String
  Body : ReqBody
deriving DecidableEq, Repr

/-- The call `io.ReadAll(r.Body)`; `none` stands for a non-nil error. -/
def ioReadAll : ReqBody → Option Json
  | .unreadable => none
  | .data j => some j

/-- The call `json.Unmarshal(body, &post)`: fields present in the object overwrite
those of `post`, absent fields are kept; `none` stands for a non-nil error. -/
def jsonUnmarshal : Json → Post → Option Post
  | .invalid, _ => none
  | .object i b, post => some ⟨i.getD post.ID, b.getD post.Body⟩

/-! ## `strconv.Atoi` -/

/-- The two errors of package `strconv`. -/
inductive NumError where
  | ErrSyntax
  | ErrRange
deriving DecidableEq, Repr

/-- The digit loop of the fast path of `strconv.Atoi`. -/
def atoiDigits : List Char → Nat → Option Nat
  | [], n => some n
  | c :: cs, n =>
    if 48 ≤ c.toNat ∧ c.toNat ≤ 57 then atoiDigits cs (n * 10 + (c.toNat - 48)) else none

/-- The digit loop of `strconv.ParseUint(s, 10, 64)`. -/
def parseUintLoop : List Char → Nat → Nat × Option NumError
  | [], n => (n, none)
  | c :: cs, n =>
    if 48 ≤ c.toNat ∧ c.toNat ≤ 57 then
      if n ≥ (2 ^ 64 - 1) / 10 + 1 then (2 ^ 64 - 1, some .ErrRange)
      else
        let n1 := n * 10 + (c.toNat - 48)
        if n1 > 2 ^ 64 - 1 then (2 ^ 64 - 1, some .ErrRange)
        else parseUintLoop cs n1
    else (0, some .ErrSyntax)

/-- The library function `strconv.ParseUint(s, 10, 64)`. -/
def parseUint (s : List Char) : Nat × Option NumError :=
  if s = [] then (0, some .ErrSyntax) else parseUintLoop s 0

/-- The library function `strconv.ParseInt(s, 10, 0)` with a 64 bit `int`. -/
def parseInt (s : List Char) : Int × Option NumError :=
  match s with
  | [] => (0, some .ErrSyntax)
  | c :: cs =>
    let neg := decide (c = '-')
    let rest := if c = '+' ∨ c = '-' then cs else c :: cs
    match parseUint rest with
    | (_, some .ErrSyntax) => (0, some .ErrSyntax)
    | (un, _) =>
      if ¬ neg ∧ un ≥ 2 ^ 63 then ((2 : Int) ^ 63 - 1, some .ErrRange)
      else if neg ∧ un > 2 ^ 63 then (-(2 : Int) ^ 63, some .ErrRange)
      else (if neg then -(un : Int) else (un : Int), none)

/-- The library function `strconv.Atoi(s)` with a 64 bit `int`: the value and the error. -/
def Atoi (s : String) : Int × Option NumError :=
  if 0 < s.utf8ByteSize ∧ s.utf8ByteSize < 19 then
    match s.data with
    | [] => (0, some .ErrSyntax)
    | c :: cs =>
      let rest := if c = '-' ∨ c = '+' then cs else c :: cs
      if rest = [] then (0, some .ErrSyntax)
      else
        match atoiDigits rest 0 with
        | none => (0, some .ErrSyntax)
        | some n => (if c = '-' then -(n : Int) else (n : Int), none)
  else parseInt s.data

/-! ## Handlers -/

/-- The handler `handleGetPosts`. -/
def handleGetPosts (s : Store) (w : ResponseWriter) : Store × ResponseWriter :=
  let postsSlice := s.posts.entries.foldl (fun acc e => acc ++ [e.2]) ([] : List Post)
  let w1 := w.SetHeader "Content-Type" "application/json"
  (s, jsonEncode w1 (Chunk.posts postsSlice))

/-- The handler `handlePostPosts`. -/
def handlePostPosts (s : Store) (r : Request) (w : ResponseWriter) : Store × ResponseWriter :=
  match ioReadAll r.Body with
  | none => (s, httpError w "Error reading request body" StatusInternalServerError)
  | some body =>
    match jsonUnmarshal body Post.zero with
    | none => (s, httpError w "Error reading request body" StatusInternalServerError)
    | some decoded =>
      let post : Post := { decoded with ID := s.nextID }
      let s1 : Store := { posts := s.posts.insert post.ID post, nextID := s.nextID + 1 }
      let w1 := w.SetHeader "Content-Type" "application/json"
      let w2 := w1.WriteHeader StatusCreated
      (s1, jsonEncode w2 (Chunk.post post))

/-- The handler `handleGetPost`. -/
def handleGetPost (s : Store) (w : ResponseWriter) (id : Int) : Store × ResponseWriter :=
  match s.posts.lookup id with
  | none => (s, httpError w "Post not found" StatusNotFound)
  | some post =>
    let w1 := w.SetHeader "Content-Type" "application/json"
    (s, jsonEncode w1 (Chunk.post post))

/-- The handler `handleDeletePost`: there is no `return` after the not-found error. -/
def handleDeletePost (s : Store) (w : ResponseWriter) (id : Int) : Store × ResponseWriter :=
  let w1 := match s.posts.lookup id with
    | none => httpError w "Post not found" StatusNotFound
    | some _ => w
  let s1 : Store := { s with posts := s.posts.erase id }
  (s1, w1.WriteHeader StatusOK)

/-- The handler `handleUpdatePost`: there is no `return` after the not-found error, so
the handler goes on with the zero value a failed map read yields. -/
def handleUpdatePost (s : Store) (r : Request) (w : ResponseWriter) (id : Int) :
    Store × ResponseWriter :=
  let post := (s.posts.lookup id).getD Post.zero
  let w1 := match s.posts.lookup id with
    | none => httpError w "Post not found" StatusNotFound
    | some _ => w
  match ioReadAll r.Body with
  | none => (s, httpError w1 "Error reading request body" StatusInternalServerError)
  | some body =>
    match jsonUnmarshal body post with
    | none => (s, httpError w1 "Error reading request body" StatusInternalServerError)
    | some post1 =>
      let s1 : Store := { s with posts := s.posts.insert id post1 }
      let w2 := w1.SetHeader "Content-Type" "Application/json"
      let w3 := w2.WriteHeader StatusCreated
      (s1, jsonEncode w3 (Chunk.post post1))

/-- The handler `postsHandler`, registered for `/posts`. -/
def postsHandler (s : Store) (w : ResponseWriter) (r : Request) : Store × ResponseWriter :=
  if r.Method = "GET" then handleGetPosts s w
  else if r.Method = "POST" then handlePostPosts s r w
  else (s, httpError w "Method not allowed" StatusMethodNotAllowed)

/-- The expression `r.URL.Path[len("/post/"):]`; the route guarantees the six byte head. -/
def pathID (r : Request) : String := ⟨r.Path.data.drop 6⟩

/-- The handler `postHandler`, registered for `/post/`: there is no `return` after the
bad-id error, so the method is dispatched with the value `Atoi` returned with its error. -/
def postHandler (s : Store) (w : ResponseWriter) (r : Request) : Store × ResponseWriter :=
  let id := (Atoi (pathID r)).1
  let w1 := match (Atoi (pathID r)).2 with
    | some _ => httpError w "Invalid post ID" StatusBadRequest
    | none => w
  if r.Method = "GET" then handleGetPost s w1 id
  else if r.Method = "POST" then handleDeletePost s w1 id
  else if r.Method = "PUT" then handleUpdatePost s r w1 id
  else (s, httpError w1 "Method not allowed" StatusMethodNotAllowed)

/-- The routing set up in `main`: `/posts` goes to `postsHandler`, every path below
`/post/` goes to `postHandler`, anything else is answered by the mux itself. -/
def serve (s : Store) (r : Request) : Store × ResponseWriter :=
  if r.Path = "/posts" then postsHandler s ResponseWriter.fresh r
  else if r.Path.data.take 6 = "/post/".data then postHandler s ResponseWriter.fresh r
  else (s, httpError ResponseWriter.fresh "404 page not found" StatusNotFound)

/-- The store after a sequence of requests served one after the other. -/
def runStore (s : Store) : List Request → Store
  | [] => s
  | r :: rs => runStore (serve s r).1 rs

/-- The responses to a sequence of requests served one after the other. -/
def runResponses (s : Store) : List Request → List ResponseWriter
  | [] => []
  | r :: rs => (serve s r).2 :: runResponses (serve s r).1 rs

/-! ## The requests of the HTTP surface -/

/-- The request `GET /posts`. -/
def listRequest : Request := ⟨"GET", "/posts", ReqBody.data Json.invalid⟩

/-- The request `POST /posts` with a body that decodes to the given fields. -/
def createRequest (id : Option Int) (body : Option String) : Request :=
  ⟨"POST", "/posts", ReqBody.data (Json.object id body)⟩

/-- A request with the given method and body to `/post/<p>`. -/
def itemRequest (method p : String) (body : ReqBody) : Request :=
  ⟨method, "/post/" ++ p, body⟩

/-- The post a response carries when it is a single JSON object. -/
def ResponseWriter.post? (w : ResponseWriter) : Option Post :=
  match w.body with
  | [Chunk.post p] => some p
  | _ => none

/-- The id a create request was assigned, read off its response: the id of the post
in a `201` answer to `POST /posts`. -/
def assignedID? (r : Request) (w : ResponseWriter) : Option Int :=
  if r.Path = "/posts" ∧ r.Method = "POST" ∧ w.status = some StatusCreated then
    w.post?.map Post.ID
  else none

/-- The ids assigned by the creates of a run, in call order. -/
def assignedIDs (s : Store) (rs : List Request) : List Int :=
  (rs.zip (runResponses s rs)).filterMap (fun e => assignedID? e.1 e.2)

/-- The store invariant of the data model: every key of the map is associated with a
post whose `ID` field is that key. -/
def KeysMatch (s : Store) : Prop :=
  ∀ (k : Int) (post : Post), s.posts.lookup k = some post → post.ID = k

/-- The request is an update: a `PUT` that `serve` hands to `postHandler`. -/
def isUpdate (r : Request) : Bool :=
  decide (r.Path ≠ "/posts") && decide (r.Path.data.take 6 = "/post/".data) &&
    decide (r.Method = "PUT")

/-- The update request keeps ids in place in store `s`: its id parses, is a key of `s`,
and its payload carries no `id` field, or the id of the path. -/
def keepsID (s : Store) (r : Request) : Bool :=
  decide ((Atoi (pathID r)).2 = none) && (s.posts.lookup (Atoi (pathID r)).1).isSome &&
    match r.Body with
    | ReqBody.data (Json.object (some i) _) => decide (i = (Atoi (pathID r)).1)
    | _ => true

/-- Every update request of the run keeps ids in place in the store it is served on. -/
def updatesKeepID (s : Store) : List Request → Bool
  | [] => true
  | r :: rs => (!isUpdate r || keepsID s r) && updatesKeepID (serve s r).1 rs

/-! ## Basic facts about the embedding -/

theorem itemRequest_path_data (m p : String) (b : ReqBody) :
    (itemRequest m p b).Path.data = '/' :: 'p' :: 'o' :: 's' :: 't' :: '/' :: p.data := by
  simp [itemRequest, String.data_append]

theorem pathID_itemRequest (m p : String) (b : ReqBody) : pathID (itemRequest m p b) = p := by
  simp [pathID, itemRequest_path_data]

theorem serve_itemRequest (s : Store) (m p : String) (b : ReqBody) :
    serve s (itemRequest m p b) = postHandler s ResponseWriter.fresh (itemRequest m p b) := by
  have h1 : (itemRequest m p b).Path ≠ "/posts" := by
    intro h
    have h2 := congrArg String.data h
    rw [itemRequest_path_data] at h2
    have h3 : "/posts".data = ['/', 'p', 'o', 's', 't', 's'] := rfl
    rw [h3] at h2
    simp at h2
  have h4 : (itemRequest m p b).Path.data.take 6 = "/post/".data := by
    rw [itemRequest_path_data]
    rfl
  simp [serve, h1, h4]

/-- The effect of a create request whose body decodes. -/
theorem serve_createRequest (s : Store) (i : Option Int) (b : Option String) :
    serve s (createRequest i b) =
      (⟨s.posts.insert s.nextID ⟨s.nextID, b.getD ""⟩, s.nextID + 1⟩,
       jsonEncode ((ResponseWriter.fresh.SetHeader "Content-Type" "application/json").WriteHeader
         StatusCreated) (Chunk.post ⟨s.nextID, b.getD ""⟩)) := by
  simp [serve, createRequest, postsHandler, handlePostPosts, ioReadAll, jsonUnmarshal, Post.zero]

@[simp] theorem status_fresh : ResponseWriter.fresh.status = none := rfl

@[simp] theorem body_fresh : ResponseWriter.fresh.body = [] := rfl

@[simp] theorem status_SetHeader (w : ResponseWriter) (k v : String) :
    (w.SetHeader k v).status = w.status := rfl

@[simp] theorem body_SetHeader (w : ResponseWriter) (k v : String) :
    (w.SetHeader k v).body = w.body := rfl

@[simp] theorem status_WriteHeader (w : ResponseWriter) (c : Nat) :
    (w.WriteHeader c).status = some (w.status.getD c) := by
  unfold ResponseWriter.WriteHeader
  cases h : w.status <;> simp [h]

@[simp] theorem body_WriteHeader (w : ResponseWriter) (c : Nat) :
    (w.WriteHeader c).body = w.body := by
  unfold ResponseWriter.WriteHeader
  cases h : w.status <;> simp

@[simp] theorem status_Write (w : ResponseWriter) (c : Chunk) :
    (w.Write c).status = some (w.status.getD 200) := by
  simp [ResponseWriter.Write]

@[simp] theorem body_Write (w : ResponseWriter) (c : Chunk) :
    (w.Write c).body = w.body ++ [c] := by
  simp [ResponseWriter.Write]

@[simp] theorem status_jsonEncode (w : ResponseWriter) (c : Chunk) :
    (jsonEncode w c).status = some (w.status.getD 200) := by
  simp [jsonEncode]

@[simp] theorem body_jsonEncode (w : ResponseWriter) (c : Chunk) :
    (jsonEncode w c).body = w.body ++ [c] := by
  simp [jsonEncode]

@[simp] theorem status_httpError (w : ResponseWriter) (msg : String) (c : Nat) :
    (httpError w msg c).status = some (w.status.getD c) := by
  simp [httpError]

@[simp] theorem body_httpError (w : ResponseWriter) (msg : String) (c : Nat) :
    (httpError w msg c).body = w.body ++ [Chunk.text (msg ++ "\n")] := by
  simp [httpError]

theorem runStore_append (s : Store) (xs ys : List Request) :
    runStore s (xs ++ ys) = runStore (runStore s xs) ys := by
  induction xs generalizing s with
  | nil => rfl
  | cons x xs ih => simp [runStore, ih]

/-- No request lowers the counter. -/
theorem serve_nextID_le (s : Store) (r : Request) : s.nextID ≤ (serve s r).1.nextID := by
  unfold serve postsHandler postHandler handleGetPosts handlePostPosts handleGetPost
    handleDeletePost handleUpdatePost
  dsimp only
  repeat' split
  all_goals simp

/-- A request that was assigned an id got the counter, and moved the counter by one. -/
theorem serve_assigned (s : Store) (r : Request) (i : Int)
    (h : assignedID? r (serve s r).2 = some i) :
    i = s.nextID ∧ (serve s r).1.nextID = s.nextID + 1 := by
  unfold assignedID? at h
  split at h
  · rename_i hc
    obtain ⟨hp, hm, hs⟩ := hc
    revert h hs
    unfold serve postsHandler handlePostPosts
    simp only [hp, hm, if_true]
    have hne : ("POST" : String) ≠ "GET" := by decide
    simp only [hne, if_false]
    cases hb : ioReadAll r.Body with
    | none => simp [StatusCreated, StatusInternalServerError]
    | some j =>
      dsimp only
      cases hj : jsonUnmarshal j Post.zero with
      | none => simp [StatusCreated, StatusInternalServerError]
      | some d =>
        simp [ResponseWriter.post?]
        intro h
        exact h.symm
  · simp at h

theorem assignedIDs_cons (s : Store) (r : Request) (rs : List Request) :
    assignedIDs s (r :: rs) =
      (assignedID? r (serve s r).2).toList ++ assignedIDs (serve s r).1 rs := by
  unfold assignedIDs
  simp only [runResponses, List.zip_cons_cons, List.filterMap_cons]
  cases assignedID? r (serve s r).2 <;> simp

theorem assignedIDs_append (s : Store) (xs ys : List Request) :
    assignedIDs s (xs ++ ys) = assignedIDs s xs ++ assignedIDs (runStore s xs) ys := by
  induction xs generalizing s with
  | nil => simp [assignedIDs, runStore, runResponses]
  | cons x xs ih => simp [assignedIDs_cons, runStore, ih]

/-- The counter never decreases along a run. -/
theorem runStore_nextID_le (s : Store) (rs : List Request) :
    s.nextID ≤ (runStore s rs).nextID := by
  induction rs generalizing s with
  | nil => exact le_refl _
  | cons r rs ih => exact le_trans (serve_nextID_le s r) (ih (serve s r).1)

/-- Every id assigned during a run lies between the counter before and after the run. -/
theorem assignedIDs_bounds (s : Store) (rs : List Request) :
    ∀ i ∈ assignedIDs s rs, s.nextID ≤ i ∧ i < (runStore s rs).nextID := by
  induction rs generalizing s with
  | nil => simp [assignedIDs, runResponses]
  | cons r rs ih =>
    intro i hi
    rw [assignedIDs_cons, List.mem_append] at hi
    rcases hi with hi | hi
    · have h1 : assignedID? r (serve s r).2 = some i := by
        cases h : assignedID? r (serve s r).2 with
        | none => simp [h] at hi
        | some j =>
          simp [h] at hi
          rw [hi]
      obtain ⟨h2, h3⟩ := serve_assigned s r i h1
      have h4 := runStore_nextID_le (serve s r).1 rs
      simp only [runStore]
      constructor <;> omega
    · obtain ⟨h2, h3⟩ := ih (serve s r).1 i hi
      have h4 := serve_nextID_le s r
      simp only [runStore]
      constructor <;> omega

/-- The ids assigned during a run are strictly increasing in call order. -/
theorem assignedIDs_pairwise (s : Store) (rs : List Request) :
    (assignedIDs s rs).Pairwise (fun a b => a < b) := by
  induction rs generalizing s with
  | nil => simp [assignedIDs, runResponses]
  | cons r rs ih =>
    rw [assignedIDs_cons, List.pairwise_append]
    refine ⟨?_, ih _, ?_⟩
    · cases assignedID? r (serve s r).2 <;> simp
    · intro a ha b hb
      have h1 : assignedID? r (serve s r).2 = some a := by
        cases h : assignedID? r (serve s r).2 with
        | none => simp [h] at ha
        | some j =>
          simp [h] at ha
          rw [ha]
      obtain ⟨h2, h3⟩ := serve_assigned s r a h1
      obtain ⟨h4, _⟩ := assignedIDs_bounds (serve s r).1 rs b hb
      omega

/-- The responses to a run of create requests whose bodies decode, from any store. -/
theorem runResponses_creates (s : Store) (l : List (Option Int × Option String)) :
    (runResponses s (l.map (fun p => createRequest p.1 p.2))).map
        (fun w => (w.status, w.post?.map Post.ID)) =
      (List.range l.length).map (fun (k : Nat) => (some StatusCreated, some (s.nextID + (k : Int)))) := by
  induction l generalizing s with
  | nil => simp [runResponses]
  | cons p l ih =>
    simp only [List.map_cons, runResponses, List.length_cons, List.range_succ_eq_map, ih]
    rw [serve_createRequest]
    simp [ResponseWriter.post?, StatusCreated]
    intro a _
    omega

/-- The ids assigned during a run of create requests whose bodies decode, from any store. -/
theorem assignedIDs_creates (s : Store) (l : List (Option Int × Option String)) :
    assignedIDs s (l.map (fun p => createRequest p.1 p.2)) =
      (List.range l.length).map (fun (k : Nat) => s.nextID + (k : Int)) := by
  induction l generalizing s with
  | nil => simp [assignedIDs, runResponses]
  | cons p l ih =>
    simp only [List.map_cons, assignedIDs_cons, List.length_cons, List.range_succ_eq_map, ih]
    rw [serve_createRequest]
    simp [assignedID?, createRequest, ResponseWriter.post?, StatusCreated]
    intro a _
    omega

/-- A request to `/post/<p>` whose id parses is dispatched on its method alone. -/
theorem serve_item_of_atoi (s : Store) (m p : String) (b : ReqBody) (id : Int)
    (hp : Atoi p = (id, none)) :
    serve s (itemRequest m p b) =
      if m = "GET" then handleGetPost s ResponseWriter.fresh id
      else if m = "POST" then handleDeletePost s ResponseWriter.fresh id
      else if m = "PUT" then handleUpdatePost s (itemRequest m p b) ResponseWriter.fresh id
      else (s, httpError ResponseWriter.fresh "Method not allowed" StatusMethodNotAllowed) := by
  rw [serve_itemRequest]
  unfold postHandler
  simp only [pathID_itemRequest, hp]
  rfl

/-- Deleting a key that is not in the map leaves the map as it is. -/
theorem erase_of_lookup_none (m : PostMap) (id : Int) (h : m.lookup id = none) :
    m.erase id = m := by
  apply AList.ext
  have h1 : id ∉ m.entries.keys := by
    have := AList.lookup_eq_none.mp h
    exact this
  simp [AList.erase, List.kerase_of_not_mem_keys h1]

theorem lookup_erase_eq (m : PostMap) (id k : Int) :
    (m.erase id).lookup k = if k = id then none else m.lookup k := by
  by_cases h : k = id
  · subst h
    simp [AList.lookup_erase]
  · simp [h, AList.lookup_erase_ne h]

theorem lookup_insert_eq (m : PostMap) (id k : Int) (v : Post) :
    (m.insert id v).lookup k = if k = id then some v else m.lookup k := by
  by_cases h : k = id
  · subst h
    simp [AList.lookup_insert]
  · simp [h, AList.lookup_insert_ne h]

/-! ## The claims -/

/-- C1: from the initial store, `N` successive create requests whose bodies decode as
posts (with or without an `id` field of their own) are all answered `201` and are
assigned the ids `1, 2, ..., N` in call order; the ids are strictly increasing and
pairwise distinct. -/
theorem create_ids_sequential (l : List (Option Int × Option String)) :
    (runResponses Store.initial (l.map (fun p => createRequest p.1 p.2))).map
        (fun w => (w.status, w.post?.map Post.ID)) =
      (List.range l.length).map (fun (k : Nat) => (some StatusCreated, some ((k : Int) + 1))) ∧
    assignedIDs Store.initial (l.map (fun p => createRequest p.1 p.2)) =
      (List.range l.length).map (fun (k : Nat) => (k : Int) + 1) ∧
    (assignedIDs Store.initial (l.map (fun p => createRequest p.1 p.2))).Pairwise
      (fun a b => a < b) ∧
    (assignedIDs Store.initial (l.map (fun p => createRequest p.1 p.2))).Nodup := by
  refine ⟨?_, ?_, assignedIDs_pairwise _ _, ?_⟩
  · rw [runResponses_creates]
    simp [Store.initial, add_comm]
  · rw [assignedIDs_creates]
    simp [Store.initial, add_comm]
  · exact (assignedIDs_pairwise _ _).imp (fun h => ne_of_lt h)

/-- C7: along every sequence of requests from the initial store the counter never
decreases, the ids assigned by the creates are strictly increasing in call order
(hence pairwise distinct), and every id assigned in a later part of the run is larger
than every id assigned before it, whatever was deleted in between. -/
theorem ids_never_reused (pre post : List Request) :
    (runStore Store.initial pre).nextID ≤ (runStore Store.initial (pre ++ post)).nextID ∧
    (assignedIDs Store.initial (pre ++ post)).Pairwise (fun a b => a < b) ∧
    (assignedIDs Store.initial (pre ++ post)).Nodup ∧
    assignedIDs Store.initial (pre ++ post) =
      assignedIDs Store.initial pre ++ assignedIDs (runStore Store.initial pre) post ∧
    (∀ i ∈ assignedIDs Store.initial pre,
      ∀ j ∈ assignedIDs (runStore Store.initial pre) post, i < j) := by
  refine ⟨?_, assignedIDs_pairwise _ _, ?_, assignedIDs_append _ _ _, ?_⟩
  · rw [runStore_append]
    exact runStore_nextID_le _ _
  · exact (assignedIDs_pairwise _ _).imp (fun h => ne_of_lt h)
  · intro i hi j hj
    have h1 := (assignedIDs_bounds _ _ i hi).2
    have h2 := (assignedIDs_bounds _ _ j hj).1
    omega

/-- C2: for every store and every body string `b`, a create request with body `b` is
answered `201` with the post `(nextID, b)`, and a get request for that id issued right
after it is answered `200` with the same post, both by the handler called with that
id and by the request `GET /post/<p>` for any `p` that parses to it. -/
theorem create_then_get (s : Store) (i : Option Int) (b p : String) (rb : ReqBody)
    (hp : Atoi p = (s.nextID, none)) :
    (serve s (createRequest i (some b))).2.status = some StatusCreated ∧
    (serve s (createRequest i (some b))).2.post? = some ⟨s.nextID, b⟩ ∧
    (serve (serve s (createRequest i (some b))).1 (itemRequest "GET" p rb)).2.status =
      some StatusOK ∧
    (serve (serve s (createRequest i (some b))).1 (itemRequest "GET" p rb)).2.post? =
      some ⟨s.nextID, b⟩ ∧
    (handleGetPost (serve s (createRequest i (some b))).1 ResponseWriter.fresh
      s.nextID).2.status = some StatusOK ∧
    (handleGetPost (serve s (createRequest i (some b))).1 ResponseWriter.fresh
      s.nextID).2.post? = some ⟨s.nextID, b⟩ := by
  rw [serve_item_of_atoi _ _ _ _ _ hp, serve_createRequest]
  simp [handleGetPost, AList.lookup_insert, ResponseWriter.post?, StatusCreated, StatusOK]

theorem create_then_get_witness :
    Atoi "1" = (Store.initial.nextID, none) ∧
    (serve Store.initial (createRequest (some 7) (some "hello"))).2.post? = some ⟨1, "hello"⟩ ∧
    (serve (serve Store.initial (createRequest (some 7) (some "hello"))).1
      (itemRequest "GET" "1" (ReqBody.data Json.invalid))).2.post? = some ⟨1, "hello"⟩ :=
  ⟨by decide,
   (create_then_get Store.initial (some 7) "hello" "1" (ReqBody.data Json.invalid)
      (by decide)).2.1,
   (create_then_get Store.initial (some 7) "hello" "1" (ReqBody.data Json.invalid)
      (by decide)).2.2.2.1⟩

/-- C3: for every store and every id that is not a key of the store, the get, the
update (whatever its body) and the delete request for that id are answered with
status `404`: it is the first status written, both by the handlers started on a fresh
response writer and by the requests `GET`, `PUT` and `POST /post/<p>` for any `p`
that parses to the id. -/
theorem not_found_status (s : Store) (id : Int) (r : Request) (p : String) (rb : ReqBody)
    (hid : s.posts.lookup id = none) (hp : Atoi p = (id, none)) :
    (handleGetPost s ResponseWriter.fresh id).2.status = some StatusNotFound ∧
    (handleUpdatePost s r ResponseWriter.fresh id).2.status = some StatusNotFound ∧
    (handleDeletePost s ResponseWriter.fresh id).2.status = some StatusNotFound ∧
    (serve s (itemRequest "GET" p rb)).2.status = some StatusNotFound ∧
    (serve s (itemRequest "PUT" p rb)).2.status = some StatusNotFound ∧
    (serve s (itemRequest "POST" p rb)).2.status = some StatusNotFound := by
  have hg : (handleGetPost s ResponseWriter.fresh id).2.status = some StatusNotFound := by
    simp [handleGetPost, hid]
  have hu : ∀ q : Request,
      (handleUpdatePost s q ResponseWriter.fresh id).2.status = some StatusNotFound := by
    intro q
    unfold handleUpdatePost
    simp only [hid]
    cases ioReadAll q.Body with
    | none => simp
    | some j =>
      dsimp only
      cases jsonUnmarshal j (Option.getD none Post.zero) <;> simp
  have hd : (handleDeletePost s ResponseWriter.fresh id).2.status = some StatusNotFound := by
    simp [handleDeletePost, hid]
  refine ⟨hg, hu r, hd, ?_, ?_, ?_⟩
  · rw [serve_item_of_atoi _ _ _ _ _ hp]
    simpa using hg
  · rw [serve_item_of_atoi _ _ _ _ _ hp]
    have h1 : ("PUT" : String) ≠ "GET" := by decide
    have h2 : ("PUT" : String) ≠ "POST" := by decide
    simp only [h1, h2, if_false, if_true]
    exact hu _
  · rw [serve_item_of_atoi _ _ _ _ _ hp]
    have h1 : ("POST" : String) ≠ "GET" := by decide
    simp only [h1, if_false, if_true]
    exact hd

theorem not_found_status_witness :
    Store.initial.posts.lookup 9999 = none ∧ Atoi "9999" = (9999, none) ∧
    (serve Store.initial (itemRequest "GET" "9999"
      (ReqBody.data (Json.object none (some "x"))))).2.status = some 404 ∧
    (serve Store.initial (itemRequest "PUT" "9999"
      (ReqBody.data (Json.object none (some "x"))))).2.status = some 404 ∧
    (serve Store.initial (itemRequest "POST" "9999"
      (ReqBody.data (Json.object none (some "x"))))).2.status = some 404 :=
  ⟨by decide, by decide,
   (not_found_status Store.initial 9999 listRequest "9999"
      (ReqBody.data (Json.object none (some "x"))) (by decide) (by decide)).2.2.2⟩

/-- C4, at the failing input: on the initial store, where `5` is not a key, the request
`PUT /post/5` with a body that decodes to `body = "x"` is answered `404` and yet
stores a post under key `5`; the handler writes the error and goes on. -/
theorem update_absent_changes_store :
    Store.initial.posts.lookup 5 = none ∧
    (serve Store.initial (itemRequest "PUT" "5"
      (ReqBody.data (Json.object none (some "x"))))).2.status = some StatusNotFound ∧
    (serve Store.initial (itemRequest "PUT" "5"
      (ReqBody.data (Json.object none (some "x"))))).1.posts.lookup 5 = some ⟨0, "x"⟩ ∧
    (serve Store.initial (itemRequest "PUT" "5"
      (ReqBody.data (Json.object none (some "x"))))).1.posts ≠ Store.initial.posts := by
  refine ⟨by decide, by decide, by decide, ?_⟩
  intro h
  have h1 := congrArg (fun m => AList.lookup (5 : Int) m) h
  revert h1
  decide

/-- The part of C4 the code does keep: a get or a delete for an id that is not a key
of the store, and an update for it whose body cannot be read or decoded, leave the
store as it was. -/
theorem absent_id_store_kept (s : Store) (w : ResponseWriter) (id : Int) (r : Request)
    (hid : s.posts.lookup id = none) :
    (handleGetPost s w id).1 = s ∧ (handleDeletePost s w id).1 = s ∧
    (jsonUnmarshal ((ioReadAll r.Body).getD Json.invalid) Post.zero = none →
      (handleUpdatePost s r w id).1 = s) := by
  refine ⟨?_, ?_, ?_⟩
  · simp [handleGetPost, hid]
  · simp [handleDeletePost, erase_of_lookup_none _ _ hid]
  · intro h
    unfold handleUpdatePost
    simp only [hid]
    cases hb : ioReadAll r.Body with
    | none => simp
    | some j =>
      rw [hb] at h
      simp at h
      simp [h]

/-- C6: for every store and every id `x` that is a key of it, the delete request for `x`
is answered `200` and leaves the store with the entry for `x` removed, every other
entry and the counter unchanged; a get for `x` issued next is answered `404`, and a
second delete for `x` is answered `404` as well and changes nothing. -/
theorem delete_removes (s : Store) (x : Int) (old : Post) (p : String) (rb rb1 rb2 : ReqBody)
    (hx : s.posts.lookup x = some old) (hp : Atoi p = (x, none)) :
    (serve s (itemRequest "POST" p rb)).2.status = some StatusOK ∧
    (serve s (itemRequest "POST" p rb)).1.posts = s.posts.erase x ∧
    (serve s (itemRequest "POST" p rb)).1.posts.lookup x = none ∧
    (∀ k, k ≠ x → (serve s (itemRequest "POST" p rb)).1.posts.lookup k = s.posts.lookup k) ∧
    (serve s (itemRequest "POST" p rb)).1.nextID = s.nextID ∧
    (serve (serve s (itemRequest "POST" p rb)).1 (itemRequest "GET" p rb1)).2.status =
      some StatusNotFound ∧
    (serve (serve s (itemRequest "POST" p rb)).1 (itemRequest "POST" p rb2)).2.status =
      some StatusNotFound ∧
    (serve (serve s (itemRequest "POST" p rb)).1 (itemRequest "POST" p rb2)).1 =
      (serve s (itemRequest "POST" p rb)).1 := by
  have h1 : ("POST" : String) ≠ "GET" := by decide
  have hd : serve s (itemRequest "POST" p rb) =
      ({ s with posts := s.posts.erase x }, ResponseWriter.fresh.WriteHeader StatusOK) := by
    rw [serve_item_of_atoi _ _ _ _ _ hp]
    simp [h1, handleDeletePost, hx]
  have hl : (s.posts.erase x).lookup x = none := AList.lookup_erase x s.posts
  rw [hd]
  refine ⟨by simp, rfl, hl, ?_, rfl, ?_, ?_, ?_⟩
  · intro k hk
    exact AList.lookup_erase_ne hk
  · rw [serve_item_of_atoi _ _ _ _ _ hp]
    simp [handleGetPost, hl]
  · rw [serve_item_of_atoi _ _ _ _ _ hp]
    simp [h1, handleDeletePost, hl]
  · rw [serve_item_of_atoi _ _ _ _ _ hp]
    simp [h1, handleDeletePost, hl, erase_of_lookup_none _ _ hl]

theorem delete_removes_witness :
    (serve Store.initial (createRequest none (some "a"))).1.posts.lookup 1 = some ⟨1, "a"⟩ ∧
    Atoi "1" = (1, none) ∧
    (serve (serve Store.initial (createRequest none (some "a"))).1
      (itemRequest "POST" "1" ReqBody.unreadable)).2.status = some 200 ∧
    (serve (serve Store.initial (createRequest none (some "a"))).1
      (itemRequest "POST" "1" ReqBody.unreadable)).1.posts.lookup 1 = none :=
  ⟨by decide, by decide,
   (delete_removes (serve Store.initial (createRequest none (some "a"))).1 1 ⟨1, "a"⟩ "1"
      ReqBody.unreadable ReqBody.unreadable ReqBody.unreadable (by decide) (by decide)).1,
   (delete_removes (serve Store.initial (createRequest none (some "a"))).1 1 ⟨1, "a"⟩ "1"
      ReqBody.unreadable ReqBody.unreadable ReqBody.unreadable (by decide) (by decide)).2.2.1⟩

/-- C10: for every store, every id that is a key of it and every body that decodes,
`PUT /post/<id>` is answered `201` with the post it stores, which is the post stored
before with the fields of the payload merged in (its `body` and its `id` replace the
stored ones when supplied, and are kept otherwise); every other entry and the counter
are unchanged.  When the body cannot be read or does not decode, the answer is `500`
and the store is unchanged. -/
theorem update_existing (s : Store) (id : Int) (old : Post) (p : String)
    (pid : Option Int) (pbody : Option String)
    (hx : s.posts.lookup id = some old) (hp : Atoi p = (id, none)) :
    (serve s (itemRequest "PUT" p (ReqBody.data (Json.object pid pbody)))).2.status =
      some StatusCreated ∧
    (serve s (itemRequest "PUT" p (ReqBody.data (Json.object pid pbody)))).2.post? =
      some ⟨pid.getD old.ID, pbody.getD old.Body⟩ ∧
    (serve s (itemRequest "PUT" p (ReqBody.data (Json.object pid pbody)))).1.posts.lookup id =
      some ⟨pid.getD old.ID, pbody.getD old.Body⟩ ∧
    (∀ k, k ≠ id →
      (serve s (itemRequest "PUT" p (ReqBody.data (Json.object pid pbody)))).1.posts.lookup k =
        s.posts.lookup k) ∧
    (serve s (itemRequest "PUT" p (ReqBody.data (Json.object pid pbody)))).1.nextID =
      s.nextID ∧
    (serve s (itemRequest "PUT" p (ReqBody.data Json.invalid))).2.status =
      some StatusInternalServerError ∧
    (serve s (itemRequest "PUT" p (ReqBody.data Json.invalid))).1 = s ∧
    (serve s (itemRequest "PUT" p ReqBody.unreadable)).2.status =
      some StatusInternalServerError ∧
    (serve s (itemRequest "PUT" p ReqBody.unreadable)).1 = s := by
  have h1 : ("PUT" : String) ≠ "GET" := by decide
  have h2 : ("PUT" : String) ≠ "POST" := by decide
  simp only [serve_item_of_atoi _ _ _ _ _ hp, h1, h2, if_false, if_true]
  refine ⟨?_, ?_, ?_, ?_, ?_, ?_, ?_, ?_, ?_⟩
  · simp [handleUpdatePost, itemRequest, ioReadAll, jsonUnmarshal, hx, StatusCreated]
  · simp [handleUpdatePost, itemRequest, ioReadAll, jsonUnmarshal, hx, ResponseWriter.post?]
  · simp [handleUpdatePost, itemRequest, ioReadAll, jsonUnmarshal, hx, AList.lookup_insert]
  · intro k hk
    simp [handleUpdatePost, itemRequest, ioReadAll, jsonUnmarshal, hx,
      AList.lookup_insert_ne hk]
  · simp [handleUpdatePost, itemRequest, ioReadAll, jsonUnmarshal, hx]
  · simp [handleUpdatePost, itemRequest, ioReadAll, jsonUnmarshal, hx,
      StatusInternalServerError]
  · simp [handleUpdatePost, itemRequest, ioReadAll, jsonUnmarshal, hx]
  · simp [handleUpdatePost, itemRequest, ioReadAll, hx, StatusInternalServerError]
  · simp [handleUpdatePost, itemRequest, ioReadAll, hx]

theorem update_existing_witness :
    (serve Store.initial (createRequest none (some "a"))).1.posts.lookup 1 = some ⟨1, "a"⟩ ∧
    Atoi "1" = (1, none) ∧
    (serve (serve Store.initial (createRequest none (some "a"))).1
      (itemRequest "PUT" "1" (ReqBody.data (Json.object (some 7) (some "z"))))).2.status =
        some 201 ∧
    (serve (serve Store.initial (createRequest none (some "a"))).1
      (itemRequest "PUT" "1" (ReqBody.data (Json.object (some 7) (some "z"))))).1.posts.lookup 1 =
        some ⟨7, "z"⟩ :=
  ⟨by decide, by decide,
   (update_existing (serve Store.initial (createRequest none (some "a"))).1 1 ⟨1, "a"⟩ "1"
      (some 7) (some "z") (by decide) (by decide)).1,
   (update_existing (serve Store.initial (createRequest none (some "a"))).1 1 ⟨1, "a"⟩ "1"
      (some 7) (some "z") (by decide) (by decide)).2.2.1⟩

/-- C9, at the failing input: on the initial store the request `PUT /post/abc` with a
body that decodes to `body = "x"` is answered `400`, and is then carried out against
the id `0` that `Atoi` returned with its error: a post is stored under key `0`.  On the
store so obtained `POST /post/abc` is answered `400` and deletes that entry. -/
theorem bad_id_update_changes_store :
    Atoi "abc" = (0, some NumError.ErrSyntax) ∧
    Store.initial.posts.lookup 0 = none ∧
    (serve Store.initial (itemRequest "PUT" "abc"
      (ReqBody.data (Json.object none (some "x"))))).2.status = some StatusBadRequest ∧
    (serve Store.initial (itemRequest "PUT" "abc"
      (ReqBody.data (Json.object none (some "x"))))).1.posts.lookup 0 = some ⟨0, "x"⟩ ∧
    (serve (serve Store.initial (itemRequest "PUT" "abc"
      (ReqBody.data (Json.object none (some "x"))))).1
        (itemRequest "POST" "abc" ReqBody.unreadable)).2.status = some StatusBadRequest ∧
    (serve (serve Store.initial (itemRequest "PUT" "abc"
      (ReqBody.data (Json.object none (some "x"))))).1
        (itemRequest "POST" "abc" ReqBody.unreadable)).1.posts.lookup 0 = none := by
  refine ⟨by decide, by decide, by decide, by decide, by decide, by decide⟩

/-- The part of C9 the code does keep: whatever the store, the method and the body, a
request to `/post/<p>` whose `p` does not parse is answered with status `400`. -/
theorem bad_id_status (s : Store) (m p : String) (rb : ReqBody) (e : NumError)
    (hp : (Atoi p).2 = some e) :
    (serve s (itemRequest m p rb)).2.status = some StatusBadRequest := by
  rw [serve_itemRequest]
  unfold postHandler handleGetPost handleDeletePost handleUpdatePost
  simp only [pathID_itemRequest, hp]
  repeat' split
  all_goals simp

theorem foldl_append_snd (l : List (Σ _ : Int, Post)) (init : List Post) :
    l.foldl (fun acc e => acc ++ [e.2]) init = init ++ l.map Sigma.snd := by
  induction l generalizing init with
  | nil => simp
  | cons e l ih => simp [ih]

/-- The effect of a list request. -/
theorem serve_listRequest (s : Store) :
    serve s listRequest =
      (s, jsonEncode (ResponseWriter.fresh.SetHeader "Content-Type" "application/json")
        (Chunk.posts (s.posts.entries.map Sigma.snd))) := by
  simp [serve, listRequest, postsHandler, handleGetPosts, foldl_append_snd]

/-- C8: for every store, a list request leaves the store unchanged and is answered `200`
with one JSON array `ps` holding the stored posts: `ps` has one element for each key of
the map (the keys are pairwise distinct), namely the post stored under that key, so its
length is the number of entries, a post occurs in it exactly when it is stored under
some key, and it is a permutation of the values of the map.  After creating posts with
bodies `a`, `b`, `c` on the initial store, the list has exactly 3 posts and their
bodies are `a`, `b`, `c` up to order. -/
theorem list_complete (s : Store) (i1 i2 i3 : Option Int) (a b c : String) :
    (serve s listRequest).1 = s ∧
    (serve s listRequest).2.status = some StatusOK ∧
    (∃ ps : List Post, (serve s listRequest).2.body = [Chunk.posts ps] ∧
      ps.length = s.posts.keys.length ∧
      s.posts.keys.Nodup ∧
      ps.map some = s.posts.keys.map (fun k => s.posts.lookup k) ∧
      (∀ q, q ∈ ps ↔ ∃ k, s.posts.lookup k = some q) ∧
      ps.Perm (s.posts.entries.map Sigma.snd)) ∧
    (∃ ps : List Post,
      (serve (runStore Store.initial [createRequest i1 (some a), createRequest i2 (some b),
        createRequest i3 (some c)]) listRequest).2.body = [Chunk.posts ps] ∧
      ps.length = 3 ∧ (ps.map Post.Body).Perm [a, b, c]) := by
  refine ⟨by rw [serve_listRequest], by simp [serve_listRequest, StatusOK], ?_, ?_⟩
  · refine ⟨s.posts.entries.map Sigma.snd, by simp [serve_listRequest], ?_,
      s.posts.keys_nodup, ?_, ?_, List.Perm.refl _⟩
    · simp [AList.keys, List.keys]
    · simp only [AList.keys, List.keys, List.map_map]
      apply List.map_congr_left
      intro e he
      have h : e.2 ∈ s.posts.lookup e.1 := AList.mem_lookup_iff.mpr he
      simpa using h.symm
    · intro q
      constructor
      · intro hq
        obtain ⟨e, he, rfl⟩ := List.mem_map.mp hq
        exact ⟨e.1, AList.mem_lookup_iff.mpr he⟩
      · rintro ⟨k, hk⟩
        have he : (⟨k, q⟩ : Σ _ : Int, Post) ∈ s.posts.entries := AList.mem_lookup_iff.mp hk
        exact List.mem_map.mpr ⟨⟨k, q⟩, he, rfl⟩
  · refine ⟨[⟨3, c⟩, ⟨2, b⟩, ⟨1, a⟩], ?_, rfl, ?_⟩
    · simp only [runStore, serve_createRequest, serve_listRequest]
      simp [Store.initial, AList.insert_entries, List.kerase]
    · simp only [List.map]
      exact (List.reverse_perm [a, b, c])

theorem keysMatch_handlePostPosts (s : Store) (r : Request) (w : ResponseWriter)
    (h : KeysMatch s) : KeysMatch (handlePostPosts s r w).1 := by
  unfold handlePostPosts
  cases ioReadAll r.Body with
  | none => exact h
  | some j =>
    dsimp only
    cases jsonUnmarshal j Post.zero with
    | none => exact h
    | some d =>
      intro k post hk
      simp only [lookup_insert_eq] at hk
      split at hk
      · rename_i hkk
        simp at hk
        rw [← hk, hkk]
      · exact h k post hk

theorem keysMatch_handleDeletePost (s : Store) (w : ResponseWriter) (id : Int)
    (h : KeysMatch s) : KeysMatch (handleDeletePost s w id).1 := by
  intro k post hk
  simp only [handleDeletePost, lookup_erase_eq] at hk
  split at hk
  · simp at hk
  · exact h k post hk

theorem keysMatch_handleUpdatePost (s : Store) (r : Request) (w : ResponseWriter) (id : Int)
    (h : KeysMatch s) (hid : (s.posts.lookup id).isSome = true)
    (hb : ∀ i b, r.Body = ReqBody.data (Json.object (some i) b) → i = id) :
    KeysMatch (handleUpdatePost s r w id).1 := by
  obtain ⟨old, hold⟩ := Option.isSome_iff_exists.mp hid
  have hoid : old.ID = id := h id old hold
  unfold handleUpdatePost
  cases hr : r.Body with
  | unreadable => simpa [ioReadAll] using h
  | data j =>
    cases j with
    | invalid => simpa [ioReadAll, jsonUnmarshal] using h
    | object pi pb =>
      simp only [ioReadAll, jsonUnmarshal, hold, Option.getD_some]
      intro k post hk
      simp only [lookup_insert_eq] at hk
      split at hk
      · rename_i hkk
        simp at hk
        rw [← hk, hkk]
        cases pi with
        | none => simpa using hoid
        | some i => simpa using hb i pb hr
      · exact h k post hk

/-- One request keeps the store invariant, unless it is an update that moves an id. -/
theorem keysMatch_serve (s : Store) (r : Request) (h : KeysMatch s)
    (hr : isUpdate r = true → keepsID s r = true) : KeysMatch (serve s r).1 := by
  unfold serve
  by_cases hp1 : r.Path = "/posts"
  · simp only [hp1, if_true]
    unfold postsHandler
    by_cases hm1 : r.Method = "GET"
    · simpa [hm1, handleGetPosts] using h
    · by_cases hm2 : r.Method = "POST"
      · simp only [hm1, hm2, if_true, if_false]
        exact keysMatch_handlePostPosts s r _ h
      · simpa [hm1, hm2] using h
  · by_cases hp2 : r.Path.data.take 6 = "/post/".data
    · simp only [hp1, hp2, if_true, if_false]
      unfold postHandler
      by_cases hm1 : r.Method = "GET"
      · simp only [hm1, if_true]
        unfold handleGetPost
        split <;> exact h
      · by_cases hm2 : r.Method = "POST"
        · simp only [hm1, hm2, if_true, if_false]
          exact keysMatch_handleDeletePost s _ _ h
        · by_cases hm3 : r.Method = "PUT"
          · simp only [hm1, hm2, hm3, if_true, if_false]
            have hu : isUpdate r = true := by simp [isUpdate, hp1, hp2, hm3]
            have hk := hr hu
            simp only [keepsID, Bool.and_eq_true, decide_eq_true_eq] at hk
            obtain ⟨⟨_, hk2⟩, hk3⟩ := hk
            apply keysMatch_handleUpdatePost s r _ _ h hk2
            intro i b hb
            rw [hb] at hk3
            simpa using hk3
          · simpa [hm1, hm2, hm3] using h
    · simpa [hp1, hp2] using h

theorem keysMatch_runStore (s : Store) (rs : List Request) (h : KeysMatch s)
    (hr : updatesKeepID s rs = true) : KeysMatch (runStore s rs) := by
  induction rs generalizing s with
  | nil => exact h
  | cons r rs ih =>
    simp only [updatesKeepID, Bool.and_eq_true, Bool.or_eq_true, Bool.not_eq_true'] at hr
    apply ih (serve s r).1 _ hr.2
    apply keysMatch_serve s r h
    intro hu
    rcases hr.1 with h1 | h1
    · rw [hu] at h1
      exact absurd h1 (by decide)
    · exact h1

/-- C5, as the claim states it, fails: after a create and the request `PUT /post/1` with
a payload carrying `id = 7`, key `1` is associated with a post whose id field is `7`. -/
theorem update_moves_id_field :
    ¬ KeysMatch (runStore Store.initial
      [createRequest none (some "a"),
       itemRequest "PUT" "1" (ReqBody.data (Json.object (some 7) none))]) := by
  intro h
  have h1 := h 1 ⟨7, "a"⟩ (by decide)
  revert h1
  decide

/-- C5, amended: in every state reached from the initial store by a sequence of
requests in which every update request has an id that parses, is a key of the store it
is served on, and carries a payload without an `id` field or with the id of the path,
every key of the map is associated with a post whose id field equals the key. -/
theorem keys_match_reachable (rs : List Request) (h : updatesKeepID Store.initial rs = true) :
    KeysMatch (runStore Store.initial rs) := by
  apply keysMatch_runStore _ _ _ h
  intro k post hk
  simp [Store.initial] at hk

theorem keys_match_reachable_witness :
    updatesKeepID Store.initial
      [createRequest (some 9) (some "a"), createRequest none (some "b"), listRequest,
       itemRequest "PUT" "2" (ReqBody.data (Json.object none (some "z"))),
       itemRequest "PUT" "1" (ReqBody.data (Json.object (some 1) none)),
       itemRequest "POST" "1" ReqBody.unreadable,
       itemRequest "GET" "abc" ReqBody.unreadable] = true ∧
    KeysMatch (runStore Store.initial
      [createRequest (some 9) (some "a"), createRequest none (some "b"), listRequest,
       itemRequest "PUT" "2" (ReqBody.data (Json.object none (some "z"))),
       itemRequest "PUT" "1" (ReqBody.data (Json.object (some 1) none)),
       itemRequest "POST" "1" ReqBody.unreadable,
       itemRequest "GET" "abc" ReqBody.unreadable]) :=
  ⟨by decide, keys_match_reachable _ (by decide)⟩

end GoServer
